import Mathlib

/-!
Shallow embedding of `src/convert/xml_to_markdown.py` (PaliCanon).
XML elements are modelled as a rose tree mirroring `xml.etree.ElementTree`:
an element has a tag, an optional `text` (text before the first child),
an optional `tail` (text after the element, owned by the parent in ET),
and a list of child elements. Filesystem writes and the error log are
modelled as explicit lists of events; the outcome of `ET.parse` is an
explicit input. Character classes (`\s`, `\d`, `str.strip`, `str.lower`)
are modelled over ASCII.
-/

namespace PaliCanon

/-- ASCII whitespace as stripped by Python `str.strip()` and matched by `\s`. -/
def isPyWs (c : Char) : Bool :=
  c = ' ' || c = '\t' || c = '\n' || c = '\r' || c = '\x0b' || c = '\x0c'

/-- Remove leading and trailing whitespace characters (Python `str.strip()`). -/
def trimChars (l : List Char) : List Char :=
  List.rdropWhile isPyWs (l.dropWhile isPyWs)

/-- Python `str.strip()` on strings. -/
def pyStrip (s : String) : String :=
  String.mk (trimChars s.data)

/-- One parsed XML element, as in `xml.etree.ElementTree`. -/
inductive Element where
  | node (tag : String) (text : Option String) (tailText : Option String)
      (children : List Element)

def Element.tag : Element → String
  | .node t _ _ _ => t

def Element.text : Element → Option String
  | .node _ x _ _ => x

def Element.tailText : Element → Option String
  | .node _ _ x _ => x

def Element.children : Element → List Element
  | .node _ _ _ cs => cs

/-- `element.find(tag)`: first direct child with the given tag, or `None`. -/
def Element.find (e : Element) (t : String) : Option Element :=
  e.children.find? (fun c => c.tag == t)

/-- `element.findall(tag)`: all direct children with the given tag, in order. -/
def Element.findall (e : Element) (t : String) : List Element :=
  e.children.filter (fun c => c.tag == t)

/-- The `.text` attribute with `None` read as the empty string; Python's
truthiness test `if e.text` is `textStr e ≠ ""`. -/
def Element.textStr (e : Element) : String :=
  match e.text with
  | some s => s
  | none => ""

/-- A text fragment yielded by `itertext` only when non-empty (`if t: yield t`). -/
def optFrag : Option String → List String
  | some s => if s = "" then [] else [s]
  | none => []

mutual

/-- `element.itertext()`: the element's own text, then recursively each
child's fragments followed by that child's tail. -/
def itertext : Element → List String
  | .node _ t _ cs => optFrag t ++ itertextList cs

def itertextList : List Element → List String
  | [] => []
  | c :: cs => itertext c ++ optFrag c.tailText ++ itertextList cs

end

/-- `extract_text`: `' '.join(element.itertext()).strip()`. -/
def extract_text (e : Element) : String :=
  pyStrip (String.intercalate " " (itertext e))

/-- A character replaced by `_` in `sanitize_filename` (the class `[<>:"/\\|?*]`). -/
def isBadChar (c : Char) : Bool :=
  c = '<' || c = '>' || c = ':' || c = '"' || c = '/' || c = '\\' ||
  c = '|' || c = '?' || c = '*'

def replChar (c : Char) : Char :=
  if isBadChar c then '_' else c

/-- `re.sub(r'[<>:"/\\|?*]', '_', name)`. -/
def replaceBadChars (l : List Char) : List Char :=
  l.map replChar

/-- `re.sub(r'^\[\d+\]\s*', '', name)`: remove a leading `[digits]` followed
by optional whitespace; leave the string unchanged when the pattern does not
match at the start. -/
def stripOrdinal (l : List Char) : List Char :=
  match l with
  | '[' :: rest =>
    if (rest.takeWhile Char.isDigit).isEmpty then l
    else
      match rest.dropWhile Char.isDigit with
      | ']' :: rest2 => rest2.dropWhile isPyWs
      | _ => l
  | _ => l

/-- `sanitize_filename`: strip the ordinal prefix, replace invalid characters
with `_`, then strip surrounding whitespace. -/
def sanitize_filename (name : String) : String :=
  String.mk (trimChars (replaceBadChars (stripOrdinal name.data)))

/-- The part of the subject that a Python `$` anchor can end a match at:
without `re.MULTILINE`, `$` matches at the end of the string and also just
before a single string-final `'\n'`, so a trailing newline is ignored. The
pattern `[mat]\.xml` itself ends in `l`, never in `'\n'`, so matching it
against this trimmed subject is exactly `re.search(r'...$', s)`. -/
def dollarBody (l : List Char) : List Char :=
  if l.getLast? = some '\n' then l.dropLast else l

/-- `classify_file`: `re.search(r'([mat])\.xml$', filename.lower())`, i.e. the
lowercased name — up to a string-final newline, which `$` skips — must end in
one of `m`, `a`, `t` immediately followed by `.xml`; the matched letter is
returned. -/
def classify_file (filename : String) : Option String :=
  let lf := dollarBody (filename.data.map Char.toLower)
  if ['m', '.', 'x', 'm', 'l'] <:+ lf then some "m"
  else if ['a', '.', 'x', 'm', 'l'] <:+ lf then some "a"
  else if ['t', '.', 'x', 'm', 'l'] <:+ lf then some "t"
  else none

/-- One file written to the output tree: (path, content). -/
abbrev Emission := String × String

/-- One entry appended to the error log, by the `logging.error` call sites. -/
inductive LogEntry where
  | unclassified (path : String)
  | xmlParseError (path : String)
  | fileNotFound (path : String)
  | permissionDenied (path : String)
  | missingH (path : String)
  | missingHa (path : String)
  | missingHan (path : String)
  | fsError (path : String)
deriving DecidableEq

/-- The observable effects of a processing step: files written, log entries. -/
abbrev Out := List Emission × List LogEntry

def appendOut (a b : Out) : Out :=
  (a.1 ++ b.1, a.2 ++ b.2)

def concatOuts (l : List Out) : Out :=
  l.foldr appendOut ([], [])

/-- `os.path.join` for two components with `/` as separator. -/
def joinPath (a b : String) : String :=
  if b.data.head? = some '/' then b
  else if a = "" then b
  else if a.data.getLast? = some '/' then a ++ b
  else a ++ "/" ++ b

/-- `os.path.basename`: everything after the last `/`. -/
def basename (p : String) : String :=
  String.mk ((p.data.reverse.takeWhile (fun c => c ≠ '/')).reverse)

/-- `create_markdown_file`: writes `content.strip()` at `markdown_path`;
an `OSError` (modelled by the oracle `fsFails`) is caught and logged, so the
caller always continues. -/
def create_markdown_file (fsFails : String → Bool) (markdown_path content : String) : Out :=
  if fsFails markdown_path then ([], [.fsError markdown_path])
  else ([(markdown_path, pyStrip content)], [])

/-- The body of the `process_h4_elements` loop for one `<h4>` element
(`continue` branches produce nothing). -/
def process_h4_single (fsFails : String → Bool) (h4 : Element) (classified_output : String) : Out :=
  match h4.find "h4n" with
  | none => ([], [])
  | some h4n =>
    if h4n.textStr = "" then ([], [])
    else
      let h4_name := sanitize_filename h4n.textStr
      let markdown_path := joinPath classified_output (h4_name ++ ".md")
      let paragraphs := h4.findall "p"
      if paragraphs.isEmpty then ([], [])
      else
        let markdown_content :=
          String.intercalate "\n\n" ((paragraphs.map extract_text).filter (fun t => t ≠ ""))
        create_markdown_file fsFails markdown_path markdown_content

/-- `process_h4_elements`: one pass of the loop per `<h4>` child of the h3. -/
def process_h4_elements (fsFails : String → Bool) (h3_element : Element) (classified_output : String) : Out :=
  concatOuts ((h3_element.findall "h4").map (fun h4 => process_h4_single fsFails h4 classified_output))

/-- The body of `process_h3_elements` once the `<h3>` child has been found. -/
def process_h3_node (fsFails : String → Bool) (h3 : Element) (classified_output : String) : Out :=
  match h3.find "h3n" with
  | none => ([], [])
  | some h3n =>
    if h3n.textStr = "" then ([], [])
    else
      let h3_folder := sanitize_filename h3n.textStr
      let out' := joinPath classified_output h3_folder
      if !(h3.findall "h4").isEmpty then process_h4_elements fsFails h3 out'
      else
        let markdown_path := joinPath out' (sanitize_filename h3n.textStr ++ ".md")
        let paragraphs := h3.findall "p"
        if paragraphs.isEmpty then ([], [])
        else
          let markdown_content :=
            String.intercalate "\n\n" ((paragraphs.map extract_text).filter (fun t => t ≠ ""))
          create_markdown_file fsFails markdown_path markdown_content

/-- `process_h3_elements`: find the single `<h3>` child and process it. -/
def process_h3_elements (fsFails : String → Bool) (h2_element : Element) (classified_output : String) : Out :=
  match h2_element.find "h3" with
  | none => ([], [])
  | some h3 => process_h3_node fsFails h3 classified_output

/-- The body of `process_h2_elements` once the `<h2>` child has been found. -/
def process_h2_node (fsFails : String → Bool) (h2 : Element) (classified_output : String) : Out :=
  match h2.find "h2n" with
  | none => ([], [])
  | some h2n =>
    if h2n.textStr = "" then ([], [])
    else
      process_h3_elements fsFails h2 (joinPath classified_output (sanitize_filename h2n.textStr))

/-- `process_h2_elements`: find the single `<h2>` child and process it. -/
def process_h2_elements (fsFails : String → Bool) (h1_element : Element) (classified_output : String) : Out :=
  match h1_element.find "h2" with
  | none => ([], [])
  | some h2 => process_h2_node fsFails h2 classified_output

/-- The body of `process_h1_elements` once the `<h1>` child has been found. -/
def process_h1_node (fsFails : String → Bool) (h1 : Element) (classified_output : String) : Out :=
  match h1.find "h1n" with
  | none => ([], [])
  | some h1n =>
    if h1n.textStr = "" then ([], [])
    else
      process_h2_elements fsFails h1 (joinPath classified_output (sanitize_filename h1n.textStr))

/-- `process_h1_elements`: find the single `<h1>` child and process it. -/
def process_h1_elements (fsFails : String → Bool) (h0_element : Element) (classified_output : String) : Out :=
  match h0_element.find "h1" with
  | none => ([], [])
  | some h1 => process_h1_node fsFails h1 classified_output

/-- The outcome of `ET.parse(xml_path)`, supplied as an input since file I/O
is modelled: either the parsed root element or one of the exceptions the
code catches. -/
inductive ParseOutcome where
  | ok (root : Element)
  | parseFailure
  | fileNotFound
  | permissionDenied

/-- `process_xml_file`: classify the basename, parse, extract the mandatory
`<h>` and `<ha>/<han>` fields, assemble the classified output path, descend
through the optional `<h0>` (whose missing or empty `<h0n>` adds no segment),
and walk the heading tree. Every error is logged and processing of the file
stops or continues exactly as in the source. -/
def process_xml_file (fsFails : String → Bool) (xml_path : String) (parsed : ParseOutcome) (output_root : String) : Out :=
  match classify_file (basename xml_path) with
  | none => ([], [.unclassified xml_path])
  | some classification =>
    match parsed with
    | .parseFailure => ([], [.xmlParseError xml_path])
    | .fileNotFound => ([], [.fileNotFound xml_path])
    | .permissionDenied => ([], [.permissionDenied xml_path])
    | .ok root =>
      match root.find "h" with
      | none => ([], [.missingH xml_path])
      | some h_element =>
        if h_element.textStr = "" then ([], [.missingH xml_path])
        else
          let top_folder := sanitize_filename h_element.textStr
          match root.find "ha" with
          | none => ([], [.missingHa xml_path])
          | some ha_element =>
            match ha_element.find "han" with
            | none => ([], [.missingHan xml_path])
            | some han_element =>
              if han_element.textStr = "" then ([], [.missingHan xml_path])
              else
                let han_folder := sanitize_filename han_element.textStr
                let classified_output :=
                  joinPath (joinPath (joinPath output_root classification) top_folder) han_folder
                match ha_element.find "h0" with
                | none => ([], [])
                | some h0 =>
                  let out' :=
                    match h0.find "h0n" with
                    | some h0n =>
                      if h0n.textStr = "" then classified_output
                      else joinPath classified_output (sanitize_filename h0n.textStr)
                    | none => classified_output
                  process_h1_elements fsFails h0 out'

/-- The batch driver's admission test: `file.lower().endswith('.xml')`. -/
def isXmlName (f : String) : Bool :=
  (".xml".data).isSuffixOf (f.data.map Char.toLower)

/-- `process_all_xml`: the directory walk is modelled as a list of candidate
files, each paired with its parse outcome; every `.xml` file is processed
independently and the effects are concatenated in order. -/
def process_all_xml (fsFails : String → Bool) (files : List (String × ParseOutcome)) (output_folder : String) : Out :=
  match files with
  | [] => ([], [])
  | (p, po) :: rest =>
    appendOut (if isXmlName p then process_xml_file fsFails p po output_folder else ([], []))
      (process_all_xml fsFails rest output_folder)

/-- The oracle for a filesystem on which every write succeeds. -/
def noFail : String → Bool := fun _ => false

/-- Remove the direct `<p>` children of an element, leaving everything else
(used to state that a node's own paragraphs do not influence the output). -/
def removePs : Element → Element
  | .node t x tl cs => .node t x tl (cs.filter (fun c => c.tag ≠ "p"))

/-! ### Concrete documents used as test inputs -/

def pHello : Element := .node "p" (some "Hello") none []

def exH1 : Element := .node "h1" none none [.node "h1n" (some "Chapter") none [], pHello]

def exH0 : Element := .node "h0" none none [exH1]

def hTitle : Element := .node "h" (some "Title") none []

def hanIdent : Element := .node "han" (some "Ident") none []

def exRoot : Element :=
  .node "root" none none [hTitle, .node "ha" none none [hanIdent, exH0]]

def exBlankH3 : Element :=
  .node "h3" none none [.node "h3n" (some " ") none [], .node "p" (some "Hi") none []]

def exBlankH2 : Element := .node "h2" none none [exBlankH3]

def pOne : Element := .node "p" (some "one") none []

def pTwo : Element := .node "p" (some "two") none []

def pMid : Element := .node "p" (some "mid") none []

def nA : Element := .node "h4n" (some "A") none []

def nB : Element := .node "h4n" (some "B") none []

def nC3 : Element := .node "h3n" (some "C3") none []

def exH4A : Element := .node "h4" none none [nA, pOne]

def exH4B : Element := .node "h4" none none [nB, pTwo]

def exDeepH3 : Element := .node "h3" none none [nC3, pMid, exH4A, exH4B]

def exDeepH2 : Element := .node "h2" none none [.node "h2n" (some "C2") none [], exDeepH3]

def exDeepH1 : Element := .node "h1" none none [.node "h1n" (some "C1") none [], exDeepH2]

def exDeepH0 : Element := .node "h0" none none [exDeepH1]

def exDeepRoot : Element :=
  .node "root" none none [hTitle, .node "ha" none none [hanIdent, exDeepH0]]

def exNoH0Root : Element :=
  .node "root" none none [hTitle, .node "ha" none none [hanIdent]]

def exEmptyHRoot : Element :=
  .node "root" none none [.node "h" none none [], .node "ha" none none [hanIdent]]

/-- A filesystem oracle on which exactly the first of the two writes of
`exDeepRoot` fails. -/
def failA : String → Bool := fun p => p == "out/m/Title/Ident/C1/C2/C3/A.md"

/-! ### General lemmas about the helpers -/

theorem dropWhile_trimChars (l : List Char) :
    List.dropWhile isPyWs (trimChars l) = trimChars l := by
  unfold trimChars
  rw [List.dropWhile_eq_self_iff]
  intro h
  have hpre := List.rdropWhile_prefix (p := isPyWs) (l := List.dropWhile isPyWs l)
  have hlen : 0 < (List.dropWhile isPyWs l).length := lt_of_lt_of_le h hpre.length_le
  have hg := hpre.getElem (n := 0) h
  rw [List.get_eq_getElem, hg]
  have hz := List.dropWhile_get_zero_not (p := isPyWs) l hlen
  rw [List.get_eq_getElem] at hz
  exact hz

theorem trimChars_idem (l : List Char) : trimChars (trimChars l) = trimChars l := by
  conv_lhs => rw [trimChars, dropWhile_trimChars]
  rw [trimChars, List.rdropWhile_idempotent]

theorem pyStrip_idem (s : String) : pyStrip (pyStrip s) = pyStrip s :=
  congrArg String.mk (trimChars_idem s.data)

theorem mem_of_mem_trimChars {c : Char} {l : List Char} (h : c ∈ trimChars l) : c ∈ l := by
  unfold trimChars at h
  exact (List.dropWhile_suffix isPyWs).subset ((List.rdropWhile_prefix _ _).subset h)

theorem replChar_replChar (c : Char) : replChar (replChar c) = replChar c := by
  by_cases h : isBadChar c = true
  · simp only [replChar, h, if_true]
    decide
  · simp [replChar, h]

theorem mem_replaceBadChars_fixed {c : Char} {l : List Char}
    (h : c ∈ replaceBadChars l) : replChar c = c := by
  rcases List.mem_map.mp h with ⟨a, _, rfl⟩
  exact replChar_replChar a

theorem replaceBadChars_of_fixed {l : List Char} (h : ∀ c ∈ l, replChar c = c) :
    replaceBadChars l = l := by
  unfold replaceBadChars
  rw [List.map_congr_left h]
  exact List.map_id l

/-! ### Claim C7: idempotence of sanitization -/

/-- C7 (counterexample): sanitization is not idempotent. For the input
`" [12] a"` the first pass strips only the surrounding whitespace, exposing
the bracketed ordinal `[12]`, which the second pass then removes, so
`sanitize_filename (sanitize_filename s) ≠ sanitize_filename s`. -/
theorem c7_idempotence_counterexample :
    sanitize_filename (sanitize_filename " [12] a") ≠ sanitize_filename " [12] a" := by
  decide

/-- C7 (amended): sanitization is idempotent for every input whose sanitized
form is a fixed point of the ordinal-prefix stripper, i.e. whenever the
sanitized name does not itself begin with a bracketed numeric ordinal. -/
theorem c7_sanitize_idempotent_on_stable_ordinal (s : String)
    (h : stripOrdinal (sanitize_filename s).data = (sanitize_filename s).data) :
    sanitize_filename (sanitize_filename s) = sanitize_filename s := by
  have h' : stripOrdinal (trimChars (replaceBadChars (stripOrdinal s.data))) =
      trimChars (replaceBadChars (stripOrdinal s.data)) := h
  show String.mk
      (trimChars (replaceBadChars (stripOrdinal (trimChars (replaceBadChars (stripOrdinal s.data)))))) =
    String.mk (trimChars (replaceBadChars (stripOrdinal s.data)))
  rw [h']
  have hrepl : replaceBadChars (trimChars (replaceBadChars (stripOrdinal s.data))) =
      trimChars (replaceBadChars (stripOrdinal s.data)) :=
    replaceBadChars_of_fixed fun _ hc => mem_replaceBadChars_fixed (mem_of_mem_trimChars hc)
  rw [hrepl, trimChars_idem]

/-- C7 witness: the amended idempotence theorem applied at `"[3] a<b "`. -/
theorem c7_sanitize_idempotent_witness :
    stripOrdinal (sanitize_filename "[3] a<b ").data = (sanitize_filename "[3] a<b ").data ∧
    sanitize_filename (sanitize_filename "[3] a<b ") = sanitize_filename "[3] a<b " :=
  ⟨by decide, c7_sanitize_idempotent_on_stable_ordinal "[3] a<b " (by decide)⟩

/-! ### Claim C6: the file classifier -/

theorem suffix5_unique {c d : Char} {lf : List Char}
    (h1 : [c, '.', 'x', 'm', 'l'] <:+ lf) (h2 : [d, '.', 'x', 'm', 'l'] <:+ lf) : c = d := by
  rw [List.suffix_iff_eq_drop] at h1 h2
  have h3 : ([c, '.', 'x', 'm', 'l'] : List Char) = [d, '.', 'x', 'm', 'l'] := by
    rw [h1, h2]
    simp
  injection h3

/-- C6 (counterexample): the claim says the classifier accepts exactly the
names whose lowercased form ends in `m`/`a`/`t` followed by `.xml`. But the
Python `$` anchor also matches just before a string-final newline, so
`"bookm.xml\n"` is classified as `m` although its lowercased form ends in a
newline, not in `.xml`. -/
theorem c6_trailing_newline_counterexample :
    classify_file "bookm.xml\n" = some "m" ∧
    ¬(['m', '.', 'x', 'm', 'l'] <:+ ("bookm.xml\n".data.map Char.toLower)) ∧
    ¬(['a', '.', 'x', 'm', 'l'] <:+ ("bookm.xml\n".data.map Char.toLower)) ∧
    ¬(['t', '.', 'x', 'm', 'l'] <:+ ("bookm.xml\n".data.map Char.toLower)) := by
  decide

/-- C6 (amended): the classifier accepts exactly the names whose lowercased
form — after ignoring a single string-final newline, which the `$` anchor
skips — ends in `m`, `a` or `t` immediately followed by `.xml`, returning
that letter; any other name yields `none`, and an unclassified file is
logged and produces no output. -/
theorem c6_classifier_characterization :
    (∀ f : String, classify_file f = some "m" ↔
      ['m', '.', 'x', 'm', 'l'] <:+ dollarBody (f.data.map Char.toLower)) ∧
    (∀ f : String, classify_file f = some "a" ↔
      ['a', '.', 'x', 'm', 'l'] <:+ dollarBody (f.data.map Char.toLower)) ∧
    (∀ f : String, classify_file f = some "t" ↔
      ['t', '.', 'x', 'm', 'l'] <:+ dollarBody (f.data.map Char.toLower)) ∧
    (∀ f : String, classify_file f = none ↔
      ¬(['m', '.', 'x', 'm', 'l'] <:+ dollarBody (f.data.map Char.toLower) ∨
        ['a', '.', 'x', 'm', 'l'] <:+ dollarBody (f.data.map Char.toLower) ∨
        ['t', '.', 'x', 'm', 'l'] <:+ dollarBody (f.data.map Char.toLower))) ∧
    (∀ (fsF : String → Bool) (xp : String) (po : ParseOutcome) (root : String),
      classify_file (basename xp) = none →
      process_xml_file fsF xp po root = ([], [.unclassified xp])) := by
  refine ⟨?_, ?_, ?_, ?_, ?_⟩
  · intro f
    unfold classify_file
    by_cases hm : ['m', '.', 'x', 'm', 'l'] <:+ dollarBody (f.data.map Char.toLower)
    · simp [hm]
    · by_cases ha : ['a', '.', 'x', 'm', 'l'] <:+ dollarBody (f.data.map Char.toLower)
      · simp [hm, ha]
      · by_cases ht : ['t', '.', 'x', 'm', 'l'] <:+ dollarBody (f.data.map Char.toLower)
        · simp [hm, ha, ht]
        · simp [hm, ha, ht]
  · intro f
    unfold classify_file
    by_cases hm : ['m', '.', 'x', 'm', 'l'] <:+ dollarBody (f.data.map Char.toLower)
    · have : ¬ (['a', '.', 'x', 'm', 'l'] <:+ dollarBody (f.data.map Char.toLower)) := by
        intro ha
        exact absurd (suffix5_unique hm ha) (by decide)
      simp [hm, this]
    · by_cases ha : ['a', '.', 'x', 'm', 'l'] <:+ dollarBody (f.data.map Char.toLower)
      · simp [hm, ha]
      · by_cases ht : ['t', '.', 'x', 'm', 'l'] <:+ dollarBody (f.data.map Char.toLower)
        · simp [hm, ha, ht]
        · simp [hm, ha, ht]
  · intro f
    unfold classify_file
    by_cases hm : ['m', '.', 'x', 'm', 'l'] <:+ dollarBody (f.data.map Char.toLower)
    · have : ¬ (['t', '.', 'x', 'm', 'l'] <:+ dollarBody (f.data.map Char.toLower)) := by
        intro ht
        exact absurd (suffix5_unique hm ht) (by decide)
      simp [hm, this]
    · by_cases ha : ['a', '.', 'x', 'm', 'l'] <:+ dollarBody (f.data.map Char.toLower)
      · have : ¬ (['t', '.', 'x', 'm', 'l'] <:+ dollarBody (f.data.map Char.toLower)) := by
          intro ht
          exact absurd (suffix5_unique ha ht) (by decide)
        simp [hm, ha, this]
      · by_cases ht : ['t', '.', 'x', 'm', 'l'] <:+ dollarBody (f.data.map Char.toLower)
        · simp [hm, ha, ht]
        · simp [hm, ha, ht]
  · intro f
    unfold classify_file
    by_cases hm : ['m', '.', 'x', 'm', 'l'] <:+ dollarBody (f.data.map Char.toLower)
    · simp [hm]
    · by_cases ha : ['a', '.', 'x', 'm', 'l'] <:+ dollarBody (f.data.map Char.toLower)
      · simp [hm, ha]
      · by_cases ht : ['t', '.', 'x', 'm', 'l'] <:+ dollarBody (f.data.map Char.toLower)
        · simp [hm, ha, ht]
        · simp [hm, ha, ht]
  · intro fsF xp po root h
    unfold process_xml_file
    rw [h]

/-- C6 witness: the classifier theorem applied at `"chapter1M.xml"` (accepted
as `m`), `"bookM.xml\n"` (accepted through the `$`-before-newline case),
`"book.xml"` (rejected), and a rejected file run end to end. -/
theorem c6_classifier_witness :
    classify_file "chapter1M.xml" = some "m" ∧
    classify_file "bookM.xml\n" = some "m" ∧
    classify_file "book.xml" = none ∧
    process_xml_file noFail "dir/book.xml" (.ok (.node "r" none none [])) "out" =
      ([], [.unclassified "dir/book.xml"]) :=
  ⟨(c6_classifier_characterization.1 "chapter1M.xml").mpr (by decide),
   (c6_classifier_characterization.1 "bookM.xml\n").mpr (by decide),
   (c6_classifier_characterization.2.2.2.1 "book.xml").mpr (by decide),
   c6_classifier_characterization.2.2.2.2 noFail "dir/book.xml" _ "out" (by decide)⟩

/-! ### Claim C3: pruning on missing or empty names -/

/-- C3 (counterexample): the claim says a name that sanitizes to the empty
string skips the whole subtree and never creates a file. But the code tests
the raw name text, so an `<h3n>` whose text is `" "` (non-empty, sanitizing
to `""`) is descended into and a file `out/.md` is created. -/
theorem c3_empty_sanitized_name_counterexample :
    sanitize_filename " " = "" ∧
    process_h3_elements noFail exBlankH2 "out" = ([("out/.md", "Hi")], []) := by
  decide

/-- C3 (amended): a heading node contributes its directory segment and is
descended into exactly when its name element is present with non-empty raw
text; if the name element is absent or its raw text is empty, the whole
subtree is skipped. The test is on the raw text, not on the sanitized text:
a name that sanitizes to the empty string still contributes an (empty)
segment and files can be created under it. -/
theorem c3_prune_requires_raw_name :
    (∀ (fsF : String → Bool) (h1 : Element) (out : String),
      (h1.find "h1n" = none ∨ ∃ n, h1.find "h1n" = some n ∧ n.textStr = "") →
      process_h1_node fsF h1 out = ([], [])) ∧
    (∀ (fsF : String → Bool) (h2 : Element) (out : String),
      (h2.find "h2n" = none ∨ ∃ n, h2.find "h2n" = some n ∧ n.textStr = "") →
      process_h2_node fsF h2 out = ([], [])) ∧
    (∀ (fsF : String → Bool) (h3 : Element) (out : String),
      (h3.find "h3n" = none ∨ ∃ n, h3.find "h3n" = some n ∧ n.textStr = "") →
      process_h3_node fsF h3 out = ([], [])) ∧
    (∀ (fsF : String → Bool) (h4 : Element) (out : String),
      (h4.find "h4n" = none ∨ ∃ n, h4.find "h4n" = some n ∧ n.textStr = "") →
      process_h4_single fsF h4 out = ([], [])) := by
  refine ⟨?_, ?_, ?_, ?_⟩ <;>
    rintro fsF e out (h | ⟨n, hn, ht⟩) <;>
      simp [process_h1_node, process_h2_node, process_h3_node, process_h4_single, *]

/-- C3 witness: an `<h1>` without an `<h1n>` produces nothing even though a
paragraph sits beneath it. -/
theorem c3_prune_requires_raw_name_witness :
    process_h1_node noFail (.node "h1" none none [.node "p" (some "x") none []]) "out" = ([], []) :=
  c3_prune_requires_raw_name.1 noFail _ "out" (Or.inl rfl)

/-! ### Claim C2: where files are emitted -/

/-- C2 (counterexample): the claim predicts a file at any node with a
non-empty paragraph and no deeper heading child. `exH1` has name
`"Chapter"`, one paragraph extracting to `"Hello"`, and no `<h2>`, yet the
walk emits nothing: level-1 nodes never emit files. -/
theorem c2_emission_iff_counterexample :
    (exH1.find "h1n").isSome = true ∧
    (exH1.findall "p").map extract_text = ["Hello"] ∧
    (exH1.find "h2").isNone = true ∧
    process_h1_elements noFail exH0 "out" = ([], []) := by
  decide

/-- C2 (amended): files are written only at levels 3 and 4. A level-3 node
with a non-empty name and no `<h4>` children emits a file iff it has at least
one `<p>` child (presence of the element, not non-emptiness of its extracted
text); a level-4 node emits iff it has a non-empty name and at least one
`<p>` child; level-1 and level-2 nodes with no deeper heading child emit
nothing, whatever their paragraphs. -/
theorem c2_emission_condition :
    (∀ (h3 : Element) (out : String) (n : Element),
      h3.find "h3n" = some n → n.textStr ≠ "" → h3.findall "h4" = [] →
      ((process_h3_node noFail h3 out).1 ≠ [] ↔ h3.findall "p" ≠ [])) ∧
    (∀ (h4 : Element) (out : String),
      (process_h4_single noFail h4 out).1 ≠ [] ↔
        ((∃ n, h4.find "h4n" = some n ∧ n.textStr ≠ "") ∧ h4.findall "p" ≠ [])) ∧
    (∀ (fsF : String → Bool) (h1 : Element) (out : String),
      h1.find "h2" = none → process_h1_node fsF h1 out = ([], [])) ∧
    (∀ (fsF : String → Bool) (h2 : Element) (out : String),
      h2.find "h3" = none → process_h2_node fsF h2 out = ([], [])) := by
  refine ⟨?_, ?_, ?_, ?_⟩
  · intro h3 out n hn ht h4s
    by_cases hp : h3.findall "p" = []
    · simp [process_h3_node, hn, ht, h4s, hp]
    · simp [process_h3_node, create_markdown_file, noFail, hn, ht, h4s, hp]
  · intro h4 out
    cases hn : h4.find "h4n" with
    | none => simp [process_h4_single, hn]
    | some n =>
      by_cases ht : n.textStr = ""
      · simp [process_h4_single, hn, ht]
      · by_cases hp : h4.findall "p" = []
        · simp [process_h4_single, hn, ht, hp]
        · simp [process_h4_single, create_markdown_file, noFail, hn, ht, hp]
  · intro fsF h1 out h
    cases hn : h1.find "h1n" with
    | none => simp [process_h1_node, hn]
    | some n => simp [process_h1_node, process_h2_elements, hn, h]
  · intro fsF h2 out h
    cases hn : h2.find "h2n" with
    | none => simp [process_h2_node, hn]
    | some n => simp [process_h2_node, process_h3_elements, hn, h]

/-- C2 witness: the emission condition applied at a concrete level-4 node
with a name and one paragraph, and at a level-1 node with no `<h2>`. -/
theorem c2_emission_condition_witness :
    (process_h4_single noFail exH4A "base").1 ≠ [] ∧
    process_h1_node noFail exH1 "out" = ([], []) :=
  ⟨(c2_emission_condition.2.1 exH4A "base").mpr
      ⟨⟨nA, rfl, by decide⟩, fun h => List.noConfusion h⟩,
    c2_emission_condition.2.2.1 noFail exH1 "out" rfl⟩

/-! ### Claim C1: the h1-only round trip -/

/-- C1 (counterexample): a well-formed document (classifiable name, title,
identifier) with a single named `<h1>` holding one paragraph `"Hello"` and
no deeper headings produces no output at all — not one file at
`{root}/{class}/{title}/{id}/{h1name}.md`. -/
theorem c1_round_trip_counterexample :
    classify_file (basename "bookm.xml") = some "m" ∧
    (exH1.find "h1n").isSome = true ∧
    (exH1.findall "p").map extract_text = ["Hello"] ∧
    (exH1.find "h2").isNone = true ∧ (exH1.find "h3").isNone = true ∧
    (exH1.find "h4").isNone = true ∧
    process_xml_file noFail "bookm.xml" (.ok exRoot) "out" = ([], []) := by
  decide

/-- C1 (amended): a well-formed document whose `<h0>` leads to an `<h1>`
with no `<h2>` child produces no output files and no log entries: the
paragraphs under the level-1 heading are discarded, because files are only
emitted at levels 3 and 4. -/
theorem c1_h1_only_document_produces_no_files
    (fsF : String → Bool) (xp out c : String) (root h_el ha_el han_el h0 h1 : Element)
    (hcls : classify_file (basename xp) = some c)
    (hh : root.find "h" = some h_el) (hht : h_el.textStr ≠ "")
    (hha : root.find "ha" = some ha_el)
    (hhan : ha_el.find "han" = some han_el) (hhant : han_el.textStr ≠ "")
    (hh0 : ha_el.find "h0" = some h0)
    (hh1 : h0.find "h1" = some h1)
    (hh2 : h1.find "h2" = none) :
    process_xml_file fsF xp (.ok root) out = ([], []) := by
  have key : ∀ o, process_h1_elements fsF h0 o = ([], []) := by
    intro o
    cases hn : h1.find "h1n" with
    | none => simp [process_h1_elements, process_h1_node, hh1, hn]
    | some n => simp [process_h1_elements, process_h1_node, process_h2_elements, hh1, hn, hh2]
  simp [process_xml_file, hcls, hh, hht, hha, hhan, hhant, hh0, key]

/-- C1 witness: the amended theorem applied to the concrete h1-only
document `exRoot` under the name `bookm.xml`. -/
theorem c1_h1_only_witness :
    process_xml_file noFail "bookm.xml" (.ok exRoot) "out" = ([], []) :=
  c1_h1_only_document_produces_no_files noFail "bookm.xml" "out" "m"
    exRoot hTitle (.node "ha" none none [hanIdent, exH0]) hanIdent exH0 exH1
    (by decide) rfl (by decide) rfl rfl (by decide) rfl rfl rfl

/-! ### Claim C4: paragraphs at intermediate nodes are discarded -/

theorem find?_tag_filter_not_p {t : String} (ht : t ≠ "p") (cs : List Element) :
    (cs.filter (fun c => c.tag ≠ "p")).find? (fun c => c.tag == t) =
      cs.find? (fun c => c.tag == t) := by
  induction cs with
  | nil => rfl
  | cons c cs ih =>
    by_cases hc : c.tag = "p"
    · have h1 : ¬(decide (c.tag ≠ "p") = true) := by simp [hc]
      have hct : ¬((c.tag == t) = true) := by
        rw [hc, beq_iff_eq]
        exact Ne.symm ht
      rw [List.filter_cons_of_neg (p := fun c : Element => decide (c.tag ≠ "p")) (l := cs) h1,
        List.find?_cons_of_neg (l := cs) hct, ih]
    · have h1 : decide (c.tag ≠ "p") = true := by simp [hc]
      rw [List.filter_cons_of_pos (p := fun c : Element => decide (c.tag ≠ "p")) (l := cs) h1]
      by_cases hq : (c.tag == t) = true
      · rw [List.find?_cons_of_pos (l := cs.filter (fun c => c.tag ≠ "p")) hq,
          List.find?_cons_of_pos (l := cs) hq]
      · rw [List.find?_cons_of_neg (l := cs.filter (fun c => c.tag ≠ "p")) hq,
          List.find?_cons_of_neg (l := cs) hq, ih]

theorem filter_tag_filter_not_p {t : String} (ht : t ≠ "p") (cs : List Element) :
    (cs.filter (fun c => c.tag ≠ "p")).filter (fun c => c.tag == t) =
      cs.filter (fun c => c.tag == t) := by
  rw [List.filter_filter]
  apply List.filter_congr
  intro x _
  by_cases hx : x.tag = t
  · have hxp : x.tag ≠ "p" := by
      rw [hx]
      exact ht
    simp [hx, hxp, ht]
  · simp [hx]

theorem removePs_find (e : Element) {t : String} (ht : t ≠ "p") :
    (removePs e).find t = e.find t := by
  cases e with
  | node tg x tl cs => exact find?_tag_filter_not_p ht cs

theorem removePs_findall (e : Element) {t : String} (ht : t ≠ "p") :
    (removePs e).findall t = e.findall t := by
  cases e with
  | node tg x tl cs => exact filter_tag_filter_not_p ht cs

theorem process_h2_elements_removePs (fsF : String → Bool) (h1 : Element) (o : String) :
    process_h2_elements fsF (removePs h1) o = process_h2_elements fsF h1 o := by
  unfold process_h2_elements
  rw [removePs_find h1 (by decide)]

theorem process_h3_elements_removePs (fsF : String → Bool) (h2 : Element) (o : String) :
    process_h3_elements fsF (removePs h2) o = process_h3_elements fsF h2 o := by
  unfold process_h3_elements
  rw [removePs_find h2 (by decide)]

theorem process_h4_elements_removePs (fsF : String → Bool) (h3 : Element) (o : String) :
    process_h4_elements fsF (removePs h3) o = process_h4_elements fsF h3 o := by
  unfold process_h4_elements
  rw [removePs_findall h3 (by decide)]

/-- C4: at a heading node that has both paragraphs and a deeper heading
child (levels 1–3), the output is produced only from the deeper path — the
node's own paragraphs influence nothing, so removing them leaves every
emitted file and log entry unchanged. -/
theorem c4_intermediate_paragraphs_dropped :
    (∀ (fsF : String → Bool) (h1 : Element) (out : String) (h2 : Element),
      h1.find "h2" = some h2 → h1.findall "p" ≠ [] →
      process_h1_node fsF (removePs h1) out = process_h1_node fsF h1 out) ∧
    (∀ (fsF : String → Bool) (h2 : Element) (out : String) (h3 : Element),
      h2.find "h3" = some h3 → h2.findall "p" ≠ [] →
      process_h2_node fsF (removePs h2) out = process_h2_node fsF h2 out) ∧
    (∀ (fsF : String → Bool) (h3 : Element) (out : String),
      h3.findall "h4" ≠ [] → h3.findall "p" ≠ [] →
      process_h3_node fsF (removePs h3) out = process_h3_node fsF h3 out) := by
  refine ⟨?_, ?_, ?_⟩
  · intro fsF h1 out h2 _ _
    unfold process_h1_node
    rw [removePs_find h1 (by decide)]
    cases hn : h1.find "h1n" with
    | none => rfl
    | some n =>
      by_cases ht : n.textStr = ""
      · simp [ht]
      · simp [ht, process_h2_elements_removePs]
  · intro fsF h2 out h3 _ _
    unfold process_h2_node
    rw [removePs_find h2 (by decide)]
    cases hn : h2.find "h2n" with
    | none => rfl
    | some n =>
      by_cases ht : n.textStr = ""
      · simp [ht]
      · simp [ht, process_h3_elements_removePs]
  · intro fsF h3 out h4s _
    unfold process_h3_node
    rw [removePs_find h3 (by decide), removePs_findall h3 (by decide)]
    cases hn : h3.find "h3n" with
    | none => rfl
    | some n =>
      by_cases ht : n.textStr = ""
      · simp [ht]
      · have hne : (h3.findall "h4").isEmpty = false := by
          cases hfa : h3.findall "h4" with
          | nil => exact absurd hfa h4s
          | cons a l => rfl
        simp [ht, hne, process_h4_elements_removePs]

/-- C4 witness: `exDeepH3` has both a paragraph and `<h4>` children, and
removing its paragraphs changes nothing. -/
theorem c4_intermediate_paragraphs_dropped_witness :
    exDeepH3.findall "h4" ≠ [] ∧ exDeepH3.findall "p" ≠ [] ∧
    process_h3_node noFail (removePs exDeepH3) "out" = process_h3_node noFail exDeepH3 "out" :=
  ⟨fun h => List.noConfusion h, fun h => List.noConfusion h,
    c4_intermediate_paragraphs_dropped.2.2 noFail exDeepH3 "out"
      (fun h => List.noConfusion h) (fun h => List.noConfusion h)⟩

/-! ### Claim C5: two h4 siblings become co-located files -/

theorem pyStrip_extract_text (p : Element) : pyStrip (extract_text p) = extract_text p :=
  pyStrip_idem _

/-- C5: a named level-3 heading with exactly two named level-4 children, each
holding one paragraph with non-empty text, produces exactly two files in the
h3's own directory, each named after the corresponding h4's sanitized name —
no per-h4 subdirectories. -/
theorem c5_two_h4_files_colocated
    (h2e h3 h3n na nb h4a h4b pa pb : Element) (out : String)
    (hf : h2e.find "h3" = some h3)
    (hn : h3.find "h3n" = some h3n) (hnt : h3n.textStr ≠ "")
    (h4s : h3.findall "h4" = [h4a, h4b])
    (hna : h4a.find "h4n" = some na) (hnat : na.textStr ≠ "")
    (hpa : h4a.findall "p" = [pa]) (hpat : extract_text pa ≠ "")
    (hnb : h4b.find "h4n" = some nb) (hnbt : nb.textStr ≠ "")
    (hpb : h4b.findall "p" = [pb]) (hpbt : extract_text pb ≠ "") :
    process_h3_elements noFail h2e out =
      ([(joinPath (joinPath out (sanitize_filename h3n.textStr))
            (sanitize_filename na.textStr ++ ".md"), extract_text pa),
        (joinPath (joinPath out (sanitize_filename h3n.textStr))
            (sanitize_filename nb.textStr ++ ".md"), extract_text pb)], []) := by
  simp [process_h3_elements, process_h3_node, process_h4_elements, process_h4_single,
    create_markdown_file, concatOuts, appendOut, noFail, hf, hn, hnt, h4s,
    hna, hnat, hpa, hpat, hnb, hnbt, hpb, hpbt, pyStrip_extract_text]
  exact ⟨pyStrip_extract_text pa, pyStrip_extract_text pb⟩

/-- C5 witness: the two-children theorem applied to the concrete subtree
`exDeepH2`, producing `base/C3/A.md` and `base/C3/B.md`. -/
theorem c5_two_h4_files_colocated_witness :
    process_h3_elements noFail exDeepH2 "base" =
      ([("base/C3/A.md", "one"), ("base/C3/B.md", "two")], []) :=
  (c5_two_h4_files_colocated exDeepH2 exDeepH3 nC3 nA nB exH4A exH4B pOne pTwo "base"
      rfl rfl (by decide) rfl rfl (by decide) rfl (by decide)
      rfl (by decide) rfl (by decide)).trans (by decide)

/-! ### Claim C8: file names and contents at emitting nodes -/

/-- C8: every file emitted at a level-4 node is named after that node's
sanitized name with the `.md` suffix, placed directly in the accumulated
directory, and its content is the node's non-empty paragraph texts joined by
one blank line and trimmed; every file emitted at a childless level-3 node is
named after the h3's sanitized name, inside the h3's own directory segment,
with the same content rule. -/
theorem c8_emission_name_and_content :
    (∀ (h4 : Element) (out : String) (e : Emission),
      e ∈ (process_h4_single noFail h4 out).1 →
      ∃ n, h4.find "h4n" = some n ∧ n.textStr ≠ "" ∧
        e.1 = joinPath out (sanitize_filename n.textStr ++ ".md") ∧
        e.2 = pyStrip (String.intercalate "\n\n"
          (((h4.findall "p").map extract_text).filter (fun t => t ≠ "")))) ∧
    (∀ (h3 : Element) (out : String) (e : Emission),
      h3.findall "h4" = [] →
      e ∈ (process_h3_node noFail h3 out).1 →
      ∃ n, h3.find "h3n" = some n ∧ n.textStr ≠ "" ∧
        e.1 = joinPath (joinPath out (sanitize_filename n.textStr))
            (sanitize_filename n.textStr ++ ".md") ∧
        e.2 = pyStrip (String.intercalate "\n\n"
          (((h3.findall "p").map extract_text).filter (fun t => t ≠ "")))) := by
  constructor
  · intro h4 out e he
    cases hn : h4.find "h4n" with
    | none => simp [process_h4_single, hn] at he
    | some n =>
      by_cases ht : n.textStr = ""
      · simp [process_h4_single, hn, ht] at he
      · by_cases hp : (h4.findall "p").isEmpty = true
        · simp [process_h4_single, hn, ht, hp] at he
        · simp [process_h4_single, create_markdown_file, noFail, hn, ht, hp] at he
          refine ⟨n, rfl, ht, ?_, ?_⟩ <;> simp [he]
  · intro h3 out e h4s he
    cases hn : h3.find "h3n" with
    | none => simp [process_h3_node, hn] at he
    | some n =>
      by_cases ht : n.textStr = ""
      · simp [process_h3_node, hn, ht] at he
      · by_cases hp : (h3.findall "p").isEmpty = true
        · simp [process_h3_node, hn, ht, h4s, hp] at he
        · simp [process_h3_node, create_markdown_file, noFail, hn, ht, h4s, hp] at he
          refine ⟨n, rfl, ht, ?_, ?_⟩ <;> simp [he]

/-- C8 witness: the name/content characterization applied to the one file
emitted by the concrete `<h4>` node `exH4A`. -/
theorem c8_emission_name_and_content_witness :
    ∃ n, exH4A.find "h4n" = some n ∧ n.textStr ≠ "" ∧
      ("base/A.md", "one").1 = joinPath "base" (sanitize_filename n.textStr ++ ".md") ∧
      ("base/A.md", "one").2 = pyStrip (String.intercalate "\n\n"
        (((exH4A.findall "p").map extract_text).filter (fun t => t ≠ ""))) :=
  c8_emission_name_and_content.1 exH4A "base" ("base/A.md", "one") (by decide)

/-! ### Claim C9: error handling and propagation -/

/-- C9 (counterexample): a file on which one write fails with a logged
filesystem error still produces output from its other writes: on
`exDeepRoot` with the write of `A.md` failing, the log records the error and
`B.md` is still emitted, so a "failing" file does not always produce no
output of its own. -/
theorem c9_failing_file_output_counterexample :
    (process_xml_file failA "bookm.xml" (.ok exDeepRoot) "out").2 =
      [.fsError "out/m/Title/Ident/C1/C2/C3/A.md"] ∧
    (process_xml_file failA "bookm.xml" (.ok exDeepRoot) "out").1 =
      [("out/m/Title/Ident/C1/C2/C3/B.md", "two")] := by
  decide

/-- C9 (amended): every error kind is caught and logged where it occurs and
never propagates: an unclassified name, a parse failure, a missing file, a
permission error, or a missing required field each yields no output and one
log entry; a failed write is logged at `create_markdown_file` and the caller
continues; and the batch driver processes files independently, the effects of
a batch being the concatenation of the effects of its parts. A file rejected
before the walk (classification, parse, required fields) produces no output,
but a file whose walk logs a filesystem error may still produce output from
its other writes. -/
theorem c9_errors_logged_never_propagate :
    (∀ (fsF : String → Bool) (xp : String) (po : ParseOutcome) (out : String),
      classify_file (basename xp) = none →
      process_xml_file fsF xp po out = ([], [.unclassified xp])) ∧
    (∀ (fsF : String → Bool) (xp out c : String),
      classify_file (basename xp) = some c →
      process_xml_file fsF xp .parseFailure out = ([], [.xmlParseError xp])) ∧
    (∀ (fsF : String → Bool) (xp out c : String),
      classify_file (basename xp) = some c →
      process_xml_file fsF xp .fileNotFound out = ([], [.fileNotFound xp])) ∧
    (∀ (fsF : String → Bool) (xp out c : String),
      classify_file (basename xp) = some c →
      process_xml_file fsF xp .permissionDenied out = ([], [.permissionDenied xp])) ∧
    (∀ (fsF : String → Bool) (xp out c : String) (root : Element),
      classify_file (basename xp) = some c →
      root.find "h" = none →
      process_xml_file fsF xp (.ok root) out = ([], [.missingH xp])) ∧
    (∀ (fsF : String → Bool) (xp out c : String) (root h_el : Element),
      classify_file (basename xp) = some c →
      root.find "h" = some h_el → h_el.textStr = "" →
      process_xml_file fsF xp (.ok root) out = ([], [.missingH xp])) ∧
    (∀ (fsF : String → Bool) (xp out c : String) (root h_el : Element),
      classify_file (basename xp) = some c →
      root.find "h" = some h_el → h_el.textStr ≠ "" →
      root.find "ha" = none →
      process_xml_file fsF xp (.ok root) out = ([], [.missingHa xp])) ∧
    (∀ (fsF : String → Bool) (xp out c : String) (root h_el ha_el : Element),
      classify_file (basename xp) = some c →
      root.find "h" = some h_el → h_el.textStr ≠ "" →
      root.find "ha" = some ha_el →
      ha_el.find "han" = none →
      process_xml_file fsF xp (.ok root) out = ([], [.missingHan xp])) ∧
    (∀ (fsF : String → Bool) (xp out c : String) (root h_el ha_el han_el : Element),
      classify_file (basename xp) = some c →
      root.find "h" = some h_el → h_el.textStr ≠ "" →
      root.find "ha" = some ha_el →
      ha_el.find "han" = some han_el → han_el.textStr = "" →
      process_xml_file fsF xp (.ok root) out = ([], [.missingHan xp])) ∧
    (∀ (fsF : String → Bool) (p c : String),
      fsF p = true → create_markdown_file fsF p c = ([], [.fsError p])) ∧
    (∀ (fsF : String → Bool) (out : String) (files1 files2 : List (String × ParseOutcome)),
      process_all_xml fsF (files1 ++ files2) out =
        appendOut (process_all_xml fsF files1 out) (process_all_xml fsF files2 out)) := by
  refine ⟨?_, ?_, ?_, ?_, ?_, ?_, ?_, ?_, ?_, ?_, ?_⟩
  · intro fsF xp po out h
    unfold process_xml_file
    rw [h]
  · intro fsF xp out c h
    unfold process_xml_file
    rw [h]
  · intro fsF xp out c h
    unfold process_xml_file
    rw [h]
  · intro fsF xp out c h
    unfold process_xml_file
    rw [h]
  · intro fsF xp out c root h hh
    simp [process_xml_file, h, hh]
  · intro fsF xp out c root h_el h hh hht
    simp [process_xml_file, h, hh, hht]
  · intro fsF xp out c root h_el h hh hht hha
    simp [process_xml_file, h, hh, hht, hha]
  · intro fsF xp out c root h_el ha_el h hh hht hha hhan
    simp [process_xml_file, h, hh, hht, hha, hhan]
  · intro fsF xp out c root h_el ha_el han_el h hh hht hha hhan hhant
    simp [process_xml_file, h, hh, hht, hha, hhan, hhant]
  · intro fsF p c h
    unfold create_markdown_file
    rw [if_pos h]
  · intro fsF out files1 files2
    induction files1 with
    | nil => simp [process_all_xml, appendOut]
    | cons f rest ih =>
      obtain ⟨p, po⟩ := f
      simp [process_all_xml, appendOut, ih, List.append_assoc]

/-- C9 witness: the propagation theorem applied to an unclassifiable name, a
parse failure, a document whose `<h>` element has empty text, and a failing
write, each at a concrete input. -/
theorem c9_errors_logged_never_propagate_witness :
    process_xml_file noFail "book.xml" (.ok exRoot) "out" = ([], [.unclassified "book.xml"]) ∧
    process_xml_file noFail "bookm.xml" .parseFailure "out" = ([], [.xmlParseError "bookm.xml"]) ∧
    process_xml_file noFail "bookm.xml" (.ok exEmptyHRoot) "out" = ([], [.missingH "bookm.xml"]) ∧
    create_markdown_file failA "out/m/Title/Ident/C1/C2/C3/A.md" "x" =
      ([], [.fsError "out/m/Title/Ident/C1/C2/C3/A.md"]) :=
  ⟨c9_errors_logged_never_propagate.1 noFail "book.xml" _ "out" (by decide),
   c9_errors_logged_never_propagate.2.1 noFail "bookm.xml" "out" "m" (by decide),
   c9_errors_logged_never_propagate.2.2.2.2.2.1 noFail "bookm.xml" "out" "m" exEmptyHRoot
     (.node "h" none none []) (by decide) rfl rfl,
   c9_errors_logged_never_propagate.2.2.2.2.2.2.2.2.2.1 failA _ "x" (by decide)⟩

/-! ### Claim C10: the optional `<h0>` grouping node -/

/-- C10: when `<h0>` is present but `<h0n>` is missing or empty, the walk
still descends into the `<h1>` with no extra directory segment (a nameless
`<h0>` does not prune its subtree, unlike levels 1–3); when `<h0>` is absent
entirely, no heading is walked and the document produces no files and no log
entries. -/
theorem c10_h0_name_optional :
    (∀ (fsF : String → Bool) (xp out c : String) (root h_el ha_el han_el h0 : Element),
      classify_file (basename xp) = some c →
      root.find "h" = some h_el → h_el.textStr ≠ "" →
      root.find "ha" = some ha_el →
      ha_el.find "han" = some han_el → han_el.textStr ≠ "" →
      ha_el.find "h0" = some h0 →
      (h0.find "h0n" = none ∨ ∃ n, h0.find "h0n" = some n ∧ n.textStr = "") →
      process_xml_file fsF xp (.ok root) out =
        process_h1_elements fsF h0
          (joinPath (joinPath (joinPath out c) (sanitize_filename h_el.textStr))
            (sanitize_filename han_el.textStr))) ∧
    (∀ (fsF : String → Bool) (xp out c : String) (root h_el ha_el han_el : Element),
      classify_file (basename xp) = some c →
      root.find "h" = some h_el → h_el.textStr ≠ "" →
      root.find "ha" = some ha_el →
      ha_el.find "han" = some han_el → han_el.textStr ≠ "" →
      ha_el.find "h0" = none →
      process_xml_file fsF xp (.ok root) out = ([], [])) := by
  constructor
  · rintro fsF xp out c root h_el ha_el han_el h0 hcls hh hht hha hhan hhant hh0
      (hn | ⟨n, hn, ht⟩) <;>
    simp [process_xml_file, hcls, hh, hht, hha, hhan, hhant, hh0, hn, *]
  · intro fsF xp out c root h_el ha_el han_el hcls hh hht hha hhan hhant hh0
    simp [process_xml_file, hcls, hh, hht, hha, hhan, hhant, hh0]

/-- C10 witness: the theorem applied to `exDeepRoot` (whose `<h0>` has no
`<h0n>`) and to `exNoH0Root` (which has no `<h0>` at all). -/
theorem c10_h0_name_optional_witness :
    process_xml_file noFail "bookm.xml" (.ok exDeepRoot) "out" =
      process_h1_elements noFail exDeepH0
        (joinPath (joinPath (joinPath "out" "m") (sanitize_filename hTitle.textStr))
          (sanitize_filename hanIdent.textStr)) ∧
    process_xml_file noFail "bookm.xml" (.ok exNoH0Root) "out" = ([], []) :=
  ⟨c10_h0_name_optional.1 noFail "bookm.xml" "out" "m" exDeepRoot hTitle
      (.node "ha" none none [hanIdent, exDeepH0]) hanIdent exDeepH0
      (by decide) rfl (by decide) rfl rfl (by decide) rfl (Or.inl rfl),
   c10_h0_name_optional.2 noFail "bookm.xml" "out" "m" exNoH0Root hTitle
      (.node "ha" none none [hanIdent]) hanIdent
      (by decide) rfl (by decide) rfl rfl (by decide) rfl⟩

end PaliCanon

